import Mathlib

/-!
Verification development for the `guess-the-place` room game server
(`src/server.js`).  The JavaScript source is shallowly embedded:

* JS strings are `String` / `List Char`; `String.prototype.toLowerCase`,
  `trim`, the regex replaces and `split(' ')` are modelled character by
  character (ASCII lower-casing, the ASCII whitespace class for `\s`);
* JS numbers are modelled as exact rationals `ℚ` (all quantities the
  claims touch stay far from the 2⁻⁵³ rounding granularity of doubles,
  so every comparison the code performs agrees with its exact-rational
  counterpart); `Math.round` is `⌊x + 1/2⌋` (half away from zero upward,
  exactly JS semantics on these values);
* the mutable per-room state is a `Room` record, socket/REST handlers are
  functions `Sys → … → Sys × List Emit`, and `setTimeout`/`clearTimeout`
  become an explicit multiset of pending timers from which a `fire` event
  may consume.
-/

namespace GuessThePlace

/-- ASCII whitespace, the characters the regex class backslash-s matches in
the source's `replace` calls (restricted to the ASCII range, which is all
the later stages of `normalize` can produce). -/
def isWs (c : Char) : Bool :=
  c = ' ' || c = '\t' || c = '\n' || c = '\r' || c = '\x0b' || c = '\x0c'

/-- Characters kept by `replace(/[^a-z0-9\s]/g, '')` in `normalize`. -/
def isKept (c : Char) : Bool :=
  ('a' ≤ c && c ≤ 'z') || ('0' ≤ c && c ≤ '9') || isWs c

/-- JS `String.prototype.trim`: drop whitespace from both ends. -/
def jsTrim (s : List Char) : List Char :=
  ((s.dropWhile isWs).reverse.dropWhile isWs).reverse

/-- Auxiliary for `replace(/\s+/g, ' ')`: the flag records whether the
previous character belonged to a whitespace run already replaced. -/
def collapseWsAux : Bool → List Char → List Char
  | _, [] => []
  | prevWs, c :: cs =>
    if isWs c then
      if prevWs then collapseWsAux true cs
      else ' ' :: collapseWsAux true cs
    else c :: collapseWsAux false cs

/-- JS `replace(/\s+/g, ' ')`: every maximal whitespace run becomes one space. -/
def collapseWs (s : List Char) : List Char := collapseWsAux false s

/-- ASCII lower-casing, modelling `toLowerCase` on the inputs the game
handles (non-ASCII letters are left alone; they are stripped by the next
stage either way). -/
def jsToLower (c : Char) : Char :=
  if 'A' ≤ c && c ≤ 'Z' then Char.ofNat (c.toNat + 32) else c

/-- The source's `normalize`: lower-case, trim, strip everything outside
`[a-z0-9\s]`, collapse whitespace runs to single spaces — in that order. -/
def normalize (s : List Char) : List Char :=
  collapseWs (((jsTrim (s.map jsToLower))).filter isKept)

/-- One row of the Levenshtein dynamic program: given the previous row
(starting at the diagonal entry) and the value to the left, produce the
tail of the current row.  Mirrors the inner `for j` loop of `levenshtein`. -/
def levRow (ca : Char) : List Char → List Nat → Nat → List Nat
  | [], _, _ => []
  | _ :: _, [], _ => []
  | cb :: bs, pDiag :: pRest, left =>
    let pUp := pRest.headD 0
    let cur := if ca = cb then pDiag else 1 + min pUp (min left pDiag)
    cur :: levRow ca bs pRest cur

/-- The source's `levenshtein`: full dynamic-programming edit distance with
unit insert/delete/substitute costs, computed row by row (`dp[0][j] = j`,
`dp[i][0] = i`, and the standard recurrence elsewhere). -/
def levenshtein (a b : List Char) : Nat :=
  let row0 : List Nat := List.range (b.length + 1)
  let final := a.foldl
    (fun (acc : List Nat × Nat) ca =>
      let i := acc.2 + 1
      (i :: levRow ca b acc.1 i, i))
    (row0, 0)
  final.1.getLastD 0

/-- Prefix test used to implement substring containment. -/
def jsStartsWith : List Char → List Char → Bool
  | _, [] => true
  | [], _ :: _ => false
  | a :: as, b :: bs => a = b && jsStartsWith as bs

/-- JS `a.includes(b)`: `b` occurs as a contiguous substring of `a`. -/
def jsIncludes : List Char → List Char → Bool
  | [], bs => bs.isEmpty
  | a :: as, bs => jsStartsWith (a :: as) bs || jsIncludes as bs

/-- JS `Math.round` on the (exact-rational model of) doubles: halfway cases
round toward positive infinity. -/
def jsRound (x : ℚ) : ℤ := ⌊x + 1 / 2⌋

/-- The source's `stopWords` list inside `checkAnswer`. -/
def stopWords : List (List Char) :=
  ["the".data, "of".data, "a".data, "an".data, "at".data, "in".data, "on".data,
   "le".data, "la".data, "el".data, "de".data, "di".data, "du".data]

/-- The source's `stripStop`: split on single spaces, drop stop words,
re-join with single spaces. -/
def stripStop (s : List Char) : List (List Char) :=
  (s.splitOn ' ').filter (fun w => ¬ stopWords.contains w)

/-- JS `arr.join(' ')` on the token list produced by `stripStop`. -/
def joinSpace (ws : List (List Char)) : List Char :=
  List.intercalate [' '] ws

/-- Vowel stripping, `replace(/[aeiou]/g, '')`. -/
def stripVowels (s : List Char) : List Char :=
  s.filter (fun c => ¬ (c = 'a' || c = 'e' || c = 'i' || c = 'o' || c = 'u'))

/-- Edit-distance ratio `distance / maxLen` with the source's
`maxLen > 0 ? distance / maxLen : 1` guard. -/
def levRatio (x y : List Char) : ℚ :=
  let d := levenshtein x y
  let m := max x.length y.length
  if 0 < m then (d : ℚ) / (m : ℚ) else 1

/-- Rules 7-9 of `checkAnswer`: fallback partial containment, the
vowel-stripped comparison, and the final `return 0`. -/
def checkAnswerLast (g c : List Char) : ℚ :=
  if jsIncludes c g && decide ((g.length : ℚ) ≥ (c.length : ℚ) * (4/10)) then 4/10 else
  let gNoVowels := stripVowels g
  let cNoVowels := stripVowels c
  if 3 ≤ gNoVowels.length ∧ 3 ≤ cNoVowels.length then
    if 0 < max gNoVowels.length cNoVowels.length ∧
       levRatio gNoVowels cNoVowels ≤ 2/10 then 65/100
    else 0
  else 0

/-- The source's `gWords`: guess tokens longer than 2 characters. -/
def guessWords (g : List Char) : List (List Char) :=
  (g.splitOn ' ').filter (fun w => 2 < w.length)

/-- The source's `cWords`: answer tokens longer than 2 characters that are
not stop words (the answer's key-word set). -/
def keyWords (c : List Char) : List (List Char) :=
  (c.splitOn ' ').filter (fun w => 2 < w.length && ¬ stopWords.contains w)

/-- One answer key word is matched when some guess token is within word
edit-distance ratio 0.3 of it (the source's inner loop with its `break`). -/
def wordHit (g : List Char) (cw : List Char) : Bool :=
  (guessWords g).any (fun gw =>
    let wordDist := levenshtein gw cw
    let wordMax := max gw.length cw.length
    0 < wordMax && decide ((wordDist : ℚ) / (wordMax : ℚ) ≤ 3/10))

/-- The source's `matchedWords` counter. -/
def matchedWords (g c : List Char) : ℕ :=
  (keyWords c).countP (wordHit g)

/-- Rule 6 of `checkAnswer` (the word-by-word matching block), falling
through to `checkAnswerLast`. -/
def checkAnswerTail (g c : List Char) : ℚ :=
  if (keyWords c).length > 0 ∧ (guessWords g).length > 0 then
    let wordRatio : ℚ := (matchedWords g c : ℚ) / ((keyWords c).length : ℚ)
    if wordRatio ≥ 1 then 85/100 else
    if wordRatio ≥ 6/10 then 6/10 else
    if wordRatio ≥ 4/10 then 4/10 else
    checkAnswerLast g c
  else
    checkAnswerLast g c

/-- The source's `checkAnswer` on already-normalized nonempty strings: the
chain of early returns after the two emptiness guards.  Factored so the
spec-side ladder can be compared with it rule by rule. -/
def checkAnswerCore (g c : List Char) : ℚ :=
  if g = c then 1 else
  if jsIncludes g c then 1 else
  if jsIncludes c g && decide ((g.length : ℚ) ≥ (c.length : ℚ) * (7/10)) then 9/10 else
  let ratio := levRatio g c
  if ratio ≤ 15/100 then 9/10 else
  if ratio ≤ 25/100 then 8/10 else
  if ratio ≤ 35/100 then 7/10 else
  let gStripped := joinSpace (stripStop g)
  let cStripped := joinSpace (stripStop c)
  if gStripped ≠ [] ∧ cStripped ≠ [] then
    if gStripped = cStripped then 95/100 else
    let sRatio := levRatio gStripped cStripped
    if sRatio ≤ 2/10 then 85/100 else
    if sRatio ≤ 35/100 then 7/10 else
    checkAnswerTail g c
  else
    checkAnswerTail g c

/-- The source's `checkAnswer(guess, correctAnswer)`: falsy-input guard,
normalization, normalized-emptiness guard, then the rule ladder. -/
def checkAnswer (guess correctAnswer : String) : ℚ :=
  if guess = "" ∨ correctAnswer = "" then 0 else
  let g := normalize guess.data
  let c := normalize correctAnswer.data
  if g = [] ∨ c = [] then 0 else
  checkAnswerCore g c

/-! The spec side: section 4.1 describes `matchQuality` as a ranked
decision ladder in which "the first matching rule wins".  Each rule is a
partial function on the pair of normalized strings; a rule that does not
match yields `none`. -/

/-- One rule of the section 4.1 ladder. -/
abbrev LadderRule := List Char → List Char → Option ℚ

/-- First matching rule wins; a ladder with no matching rule yields 0
(section 4.1 rule 9, "Otherwise → 0"). -/
def firstRule : List LadderRule → List Char → List Char → ℚ
  | [], _, _ => 0
  | r :: rs, g, c =>
    match r g c with
    | some q => q
    | none => firstRule rs g c

/-- Section 4.1 rule 1: exact normalized equality. -/
def ladderRule1 : LadderRule := fun g c =>
  if g = c then some 1 else none

/-- Section 4.1 rule 2: guess contains the full normalized answer. -/
def ladderRule2 : LadderRule := fun g c =>
  if jsIncludes g c then some 1 else none

/-- Section 4.1 rule 3: answer contains the full normalized guess and the
guess is at least 70 percent of the answer's length. -/
def ladderRule3 : LadderRule := fun g c =>
  if jsIncludes c g && decide ((g.length : ℚ) ≥ (c.length : ℚ) * (7/10)) then some (9/10)
  else none

/-- Section 4.1 rule 4: whole-string edit-distance ratio tiers. -/
def ladderRule4 : LadderRule := fun g c =>
  let ratio := levRatio g c
  if ratio ≤ 15/100 then some (9/10) else
  if ratio ≤ 25/100 then some (8/10) else
  if ratio ≤ 35/100 then some (7/10) else none

/-- Section 4.1 rule 5 exactly as the spec words it: equality of the
stop-word-stripped forms gives 0.95, otherwise edit-ratio tiers on the
stripped forms — with no condition on the stripped forms being nonempty. -/
def ladderRule5 : LadderRule := fun g c =>
  let gStripped := joinSpace (stripStop g)
  let cStripped := joinSpace (stripStop c)
  if gStripped = cStripped then some (95/100) else
  let sRatio := levRatio gStripped cStripped
  if sRatio ≤ 2/10 then some (85/100) else
  if sRatio ≤ 35/100 then some (7/10) else none

/-- Section 4.1 rule 5 as the code implements it: the tier applies only
when both stop-word-stripped forms are nonempty. -/
def ladderRule5Guarded : LadderRule := fun g c =>
  let gStripped := joinSpace (stripStop g)
  let cStripped := joinSpace (stripStop c)
  if gStripped ≠ [] ∧ cStripped ≠ [] then ladderRule5 g c else none

/-- Section 4.1 rule 6: token-level matching.  `wordRatio` is the fraction
of answer key words matched by some guess token at edit ratio at most 0.3
(0 when there are no key words, so no tier can fire then). -/
def ladderRule6 : LadderRule := fun g c =>
  let wordRatio : ℚ :=
    if (keyWords c).length = 0 then 0
    else (matchedWords g c : ℚ) / ((keyWords c).length : ℚ)
  if wordRatio ≥ 1 then some (85/100) else
  if wordRatio ≥ 6/10 then some (6/10) else
  if wordRatio ≥ 4/10 then some (4/10) else none

/-- Section 4.1 rule 7: fallback partial containment at 40 percent length. -/
def ladderRule7 : LadderRule := fun g c =>
  if jsIncludes c g && decide ((g.length : ℚ) ≥ (c.length : ℚ) * (4/10)) then some (4/10)
  else none

/-- Section 4.1 rule 8: vowel-stripped comparison, only when both stripped
strings have length at least 3. -/
def ladderRule8 : LadderRule := fun g c =>
  let gNoVowels := stripVowels g
  let cNoVowels := stripVowels c
  if 3 ≤ gNoVowels.length ∧ 3 ≤ cNoVowels.length then
    if 0 < max gNoVowels.length cNoVowels.length ∧
       levRatio gNoVowels cNoVowels ≤ 2/10 then some (65/100)
    else none
  else none

/-- Modelled from the spec: the section 4.1 contract around a given rule-5
variant — normalize both inputs, return 0 on an empty guess or empty
normalized input, otherwise the value of the first matching ladder rule. -/
def matchQualityLadder (rule5 : LadderRule) (guess answer : String) : ℚ :=
  if guess = "" ∨ answer = "" then 0 else
  let g := normalize guess.data
  let c := normalize answer.data
  if g = [] ∨ c = [] then 0 else
  firstRule [ladderRule1, ladderRule2, ladderRule3, ladderRule4, rule5,
             ladderRule6, ladderRule7, ladderRule8] g c

/-- Modelled from the spec: section 4.1 read literally (rule 5 has no
nonemptiness condition). -/
def matchQualitySpec : String → String → ℚ := matchQualityLadder ladderRule5

/-- The section 4.1 ladder with rule 5 restricted to nonempty stripped
forms, which is what the code implements. -/
def matchQualitySpecAmended : String → String → ℚ :=
  matchQualityLadder ladderRule5Guarded

theorem firstRule_nil (g c : List Char) : firstRule [] g c = 0 := rfl

theorem firstRule_cons (r : LadderRule) (rs : List LadderRule) (g c : List Char) :
    firstRule (r :: rs) g c =
      match r g c with
      | some q => q
      | none => firstRule rs g c := rfl

theorem checkAnswerLast_eq (g c : List Char) :
    checkAnswerLast g c = firstRule [ladderRule7, ladderRule8] g c := by
  simp only [firstRule_cons, firstRule_nil]
  unfold checkAnswerLast ladderRule7 ladderRule8
  dsimp only
  split_ifs <;> rfl

theorem matchedWords_of_no_guessWords (g c : List Char) (h : guessWords g = []) :
    matchedWords g c = 0 := by
  unfold matchedWords wordHit
  rw [h]
  simp [List.countP_eq_zero]

theorem checkAnswerTail_eq (g c : List Char) :
    checkAnswerTail g c = firstRule [ladderRule6, ladderRule7, ladderRule8] g c := by
  simp only [firstRule_cons]
  unfold checkAnswerTail ladderRule6
  dsimp only
  by_cases hc : (keyWords c).length > 0
  · by_cases hg : (guessWords g).length > 0
    · have hc0 : ¬ (keyWords c).length = 0 := by omega
      simp only [hc, hg, and_self, if_true, hc0, if_false]
      split_ifs <;>
        simp only [checkAnswerLast_eq, firstRule_cons, firstRule_nil]
    · have hg0 : guessWords g = [] := List.length_eq_zero.mp (by omega)
      have hc0 : ¬ (keyWords c).length = 0 := by omega
      simp only [hc, hg, and_false, if_false, hc0,
        matchedWords_of_no_guessWords g c hg0, Nat.cast_zero, zero_div]
      norm_num [checkAnswerLast_eq, firstRule_cons, firstRule_nil]
  · have hc0 : (keyWords c).length = 0 := by omega
    simp only [hc, false_and, if_false, hc0, if_true]
    norm_num [checkAnswerLast_eq, firstRule_cons, firstRule_nil]

set_option maxHeartbeats 2000000 in
theorem checkAnswerCore_eq (g c : List Char) :
    checkAnswerCore g c = firstRule
      [ladderRule1, ladderRule2, ladderRule3, ladderRule4, ladderRule5Guarded,
       ladderRule6, ladderRule7, ladderRule8] g c := by
  simp only [firstRule_cons]
  unfold checkAnswerCore ladderRule1 ladderRule2 ladderRule3 ladderRule4
    ladderRule5Guarded ladderRule5
  dsimp only
  split_ifs <;>
    simp only [checkAnswerTail_eq, firstRule_cons, firstRule_nil]

theorem checkAnswerLast_range (g c : List Char) :
    0 ≤ checkAnswerLast g c ∧ checkAnswerLast g c ≤ 1 := by
  unfold checkAnswerLast
  dsimp only
  split_ifs <;> norm_num

theorem checkAnswerTail_range (g c : List Char) :
    0 ≤ checkAnswerTail g c ∧ checkAnswerTail g c ≤ 1 := by
  unfold checkAnswerTail
  dsimp only
  split_ifs <;> first | exact checkAnswerLast_range g c | norm_num

set_option maxHeartbeats 2000000 in
theorem checkAnswerCore_range (g c : List Char) :
    0 ≤ checkAnswerCore g c ∧ checkAnswerCore g c ≤ 1 := by
  unfold checkAnswerCore
  dsimp only
  split_ifs <;> first | exact checkAnswerTail_range g c | norm_num

theorem checkAnswer_range (guess answer : String) :
    0 ≤ checkAnswer guess answer ∧ checkAnswer guess answer ≤ 1 := by
  unfold checkAnswer
  dsimp only
  split_ifs <;> first | exact checkAnswerCore_range _ _ | norm_num

theorem checkAnswer_eq_amendedLadder (guess answer : String) :
    checkAnswer guess answer = matchQualitySpecAmended guess answer := by
  unfold checkAnswer matchQualitySpecAmended matchQualityLadder
  dsimp only
  split_ifs <;> first | rfl | exact checkAnswerCore_eq _ _

/-- C1 (amended): `matchQuality` (the source's `checkAnswer`) is a pure
function whose result always lies in [0,1]; both inputs are normalized
(lower-cased, trimmed, characters outside `[a-z0-9 space]` stripped,
whitespace runs collapsed to single spaces), an empty guess or an empty
normalized answer yields 0, and the result is the value of the first
matching rule of the section 4.1 ladder *with rule 5 (the stop-word-
stripped comparison) applying only when both stripped forms are nonempty*,
edit distance being the dynamic-programming Levenshtein distance. -/
theorem c1_matchQuality_contract (guess answer : String) :
    checkAnswer guess answer = matchQualitySpecAmended guess answer ∧
    0 ≤ checkAnswer guess answer ∧ checkAnswer guess answer ≤ 1 ∧
    (guess = "" → checkAnswer guess answer = 0) ∧
    (normalize answer.data = [] → checkAnswer guess answer = 0) := by
  refine ⟨checkAnswer_eq_amendedLadder guess answer,
    (checkAnswer_range guess answer).1, (checkAnswer_range guess answer).2, ?_, ?_⟩
  · intro h
    simp [checkAnswer, h]
  · intro h
    unfold checkAnswer
    dsimp only
    rw [h]
    split_ifs with h1 h2 <;> simp_all

/-- C1 witness: the contract evaluated at concrete inputs, with both
hypothetical conjuncts discharged. -/
theorem c1_matchQuality_contract_witness :
    checkAnswer "Big Ben" "Big Ben" = matchQualitySpecAmended "Big Ben" "Big Ben" ∧
    checkAnswer "" "Paris" = 0 ∧
    checkAnswer "Louvre" "..." = 0 :=
  ⟨(c1_matchQuality_contract "Big Ben" "Big Ben").1,
   (c1_matchQuality_contract "" "Paris").2.2.2.1 rfl,
   (c1_matchQuality_contract "Louvre" "...").2.2.2.2 (by decide)⟩

/-- C1 counterexample: on guess "the" and answer "of" (both pure stop
words) the literal section 4.1 ladder fires rule 5 with two empty stripped
forms and yields 0.95, while the code's `checkAnswer` skips the stop-word
tier when a stripped form is empty and returns 0. -/
theorem c1_ladder_literal_cex :
    checkAnswer "the" "of" = 0 ∧ matchQualitySpec "the" "of" = 95/100 := by
  constructor <;> with_unfolding_all decide

/-- C8 counterexample: the spec's worked example is miscomputed — the
edit distance between the normalized strings is 2 over max length 12,
ratio 1/6 > 0.15, so `checkAnswer "Eifel Toer" "Eiffel Tower"` is not 0.9. -/
theorem c8_eifel_cex : checkAnswer "Eifel Toer" "Eiffel Tower" ≠ 9/10 := by
  with_unfolding_all decide

/-- C8 (amended): `matchQuality("Eifel Toer", "Eiffel Tower")` returns 0.8
via the ≤ 0.25 tier of the whole-string edit-distance-ratio rule: the
Levenshtein distance is 2, the ratio is 1/6, which exceeds the 0.15
threshold of the 0.9 tier but is within the 0.25 threshold of the 0.8 one. -/
theorem c8_eifel_quality :
    checkAnswer "Eifel Toer" "Eiffel Tower" = 8/10 ∧
    levenshtein (normalize "Eifel Toer".data) (normalize "Eiffel Tower".data) = 2 ∧
    levRatio (normalize "Eifel Toer".data) (normalize "Eiffel Tower".data) = 1/6 ∧
    ¬ levRatio (normalize "Eifel Toer".data) (normalize "Eiffel Tower".data) ≤ 15/100 ∧
    levRatio (normalize "Eifel Toer".data) (normalize "Eiffel Tower".data) ≤ 25/100 := by
  refine ⟨?_, ?_, ?_, ?_, ?_⟩ <;> with_unfolding_all decide

/-! The room game engine.  One `Room` record per room, mirroring the object
built by `createRoom`; the socket and REST handlers become functions from a
system state (`Sys`) to a new state plus the list of emitted events.
`setTimeout`/`clearTimeout`/`setInterval` are modelled by an explicit list
of pending timers carrying fresh identifiers: a `fire` event consumes a
pending timer and runs its callback (`startRound` or `endRound`), and
`clearTimeout` removes an identifier from the list.  The hint interval only
emits messages and never mutates room state, so it is not tracked.  Image
upload/removal and room creation are outside the engine (spec section 1
treats them as external collaborators): the image list is supplied when the
room is created and is fixed afterwards; the settings REST endpoint is kept
because claim C9 is about it. -/

/-- One entry of a player's `answers` history.  The source pushes
`{round, correct, points, time, matchQuality}` on a scored guess and
`{round, correct:false, points:0, time:null}` at round end; absent fields
are `none`. -/
structure AnswerEntry where
  round : ℕ
  correct : Bool
  points : ℤ
  time : Option ℤ
  quality : Option ℚ
deriving DecidableEq, Repr

/-- A player record, as built by the `player-join` handler. -/
structure Player where
  id : String
  name : String
  score : ℤ
  answers : List AnswerEntry
  streak : ℕ
deriving DecidableEq, Repr

/-- An uploaded image with its answer text. -/
structure Image where
  data : String
  name : String
  answer : String
deriving DecidableEq, Repr

/-- Room settings; `roundTime` is in seconds, as in the source. -/
structure Settings where
  roundTime : ℕ
  totalRounds : ℕ
deriving DecidableEq, Repr

/-- The room lifecycle states of the source. -/
inductive RState where
  | setup | lobby | playing | roundResult | finished
deriving DecidableEq, Repr

/-- The per-room state, mirroring the object literal in `createRoom`.
`players` is the JS `Map` as an insertion-ordered association list keyed by
socket id, `roundAnswered` the JS `Set` as an insertion-ordered duplicate-
free list, and `roundTimer` holds the identifier of the last timer stored
in `room.roundTimer`. -/
structure Room where
  id : String
  hostId : String
  hostSocketId : Option String
  images : List Image
  players : List (String × Player)
  settings : Settings
  state : RState
  currentRound : ℕ
  roundStartTime : Option ℤ
  roundTimer : Option ℕ
  roundAnswered : List String
  createdAt : ℤ
deriving DecidableEq, Repr

/-- What a pending timer will run when it fires: the 2-second game-start
timer and the 5-second round-advance timer both call `startRound`; the
round-duration timer calls `endRound`. -/
inductive TimerKind where
  | startRoundT | endRoundT | nextRoundT
deriving DecidableEq, Repr

/-- Whole modelled system for one room: the room, the per-socket `isHost`
flags assigned at join time, and the pending timers with a fresh-id
counter. -/
structure Sys where
  room : Room
  conns : List (String × Bool)
  pending : List (ℕ × TimerKind)
  nextId : ℕ
deriving DecidableEq, Repr

/-- Events the engine emits (coarse payloads: only the fields the claims
talk about are carried). -/
inductive Emit where
  | errorMsg (dest : String) (message : String)
  | roomJoined (dest : String) (isHost : Bool)
  | playerUpdate
  | gameStarted
  | roundStart (round : ℕ)
  | guessResult (dest : String) (correct : Bool) (alreadyAnswered : Bool)
      (points : ℤ) (position : ℕ) (streak : ℕ)
  | leaderboardUpdate (answeredCount : ℕ) (totalPlayers : ℕ)
  | roundEnd (round : ℕ)
  | gameOver
  | hostDisconnected
deriving DecidableEq, Repr

/-- Events consumed by the engine.  `fire` delivers a pending timer;
`updateSettings` is the `POST /api/settings/:roomId` endpoint with the two
optional (truthy) body fields. -/
inductive Ev where
  | hostJoin (sock : String) (hostId : String)
  | playerJoin (sock : String) (name : String)
  | startGame (sock : String)
  | submitGuess (sock : String) (guess : String) (now : ℤ)
  | disconnect (sock : String)
  | fire (id : ℕ) (now : ℤ)
  | updateSettings (roundTime : Option ℕ) (totalRounds : Option ℕ)
deriving DecidableEq, Repr

/-- Look a player up by socket id (JS `Map.get`). -/
def getPlayer (ps : List (String × Player)) (k : String) : Option Player :=
  (ps.find? (fun kv => kv.1 = k)).map (fun kv => kv.2)

/-- JS `Map.set`: replace in place if the key exists, else append. -/
def setPlayer (ps : List (String × Player)) (k : String) (v : Player) :
    List (String × Player) :=
  if ps.any (fun kv => kv.1 = k) then
    ps.map (fun kv => if kv.1 = k then (k, v) else kv)
  else ps ++ [(k, v)]

/-- Connection flag lookup: `socket.isHost`, false when never set. -/
def isHostConn (conns : List (String × Bool)) (k : String) : Bool :=
  ((conns.find? (fun kv => kv.1 = k)).map (fun kv => kv.2)).getD false

/-- `setTimeout`: append a pending timer with a fresh identifier. -/
def schedule (sys : Sys) (k : TimerKind) : Sys × ℕ :=
  ({ sys with pending := sys.pending ++ [(sys.nextId, k)], nextId := sys.nextId + 1 },
   sys.nextId)

/-- `clearTimeout`: drop the identifier from the pending list. -/
def clearTimer (pending : List (ℕ × TimerKind)) (tid : ℕ) : List (ℕ × TimerKind) :=
  pending.filter (fun p => p.1 ≠ tid)

/-- The image shown in the current round, `images[currentRound - 1]`.  A
round index of 0 or beyond the list would make the JS code crash on an
undefined element before mutating anything; the model returns an empty
image there, whose empty answer makes every guess score 0, so no state
change happens in those states either. -/
def currentImage (room : Room) : Image :=
  if room.currentRound = 0 then ⟨"", "", ""⟩
  else room.images.getD (room.currentRound - 1) ⟨"", "", ""⟩

/-- The `host-join` handler: on a correct host credential it joins the
socket as host and unconditionally puts the room in the lobby state. -/
def hostJoinH (sys : Sys) (sock hostId : String) : Sys × List Emit :=
  if sys.room.hostId ≠ hostId then
    (sys, [Emit.errorMsg sock "Invalid room or host ID"])
  else
    ({ sys with
        room := { sys.room with hostSocketId := some sock, state := RState.lobby },
        conns := (sys.conns.filter (fun kv => kv.1 ≠ sock)) ++ [(sock, true)] },
     [Emit.roomJoined sock true])

/-- Length-clamped display name, `playerName.trim().slice(0, 20)`. -/
def clampName (name : String) : String :=
  String.mk ((jsTrim name.data).take 20)

/-- The `player-join` handler. -/
def playerJoinH (sys : Sys) (sock name : String) : Sys × List Emit :=
  if sys.room.state = RState.finished then
    (sys, [Emit.errorMsg sock "This game has already ended"])
  else if sys.room.state = RState.setup then
    (sys, [Emit.errorMsg sock "Room is still being set up. Wait for the host to share the link."])
  else
    let player : Player :=
      { id := sock, name := clampName name, score := 0, answers := [], streak := 0 }
    let room' := { sys.room with players := setPlayer sys.room.players sock player }
    let conns' := (sys.conns.filter (fun kv => kv.1 ≠ sock)) ++ [(sock, false)]
    ({ sys with room := room', conns := conns' },
     [Emit.roomJoined sock false, Emit.playerUpdate] ++
       (if room'.state = RState.playing then [Emit.roundStart room'.currentRound] else []))

/-- The `endGame` function: set the terminal state, cancel the tracked
round timer, emit `game-over`. -/
def endGameH (sys : Sys) : Sys × List Emit :=
  let room' := { sys.room with state := RState.finished }
  let pending' :=
    match room'.roundTimer with
    | some tid => clearTimer sys.pending tid
    | none => sys.pending
  ({ sys with room := room', pending := pending' }, [Emit.gameOver])

/-- The `startRound` function: advance the round counter, finish the game
when rounds are exhausted, otherwise enter the playing state, reset the
answered set, emit `round-start` and arm the round-end timer. -/
def startRoundH (sys : Sys) (now : ℤ) : Sys × List Emit :=
  let room := { sys.room with currentRound := sys.room.currentRound + 1 }
  if room.currentRound > room.settings.totalRounds then
    endGameH { sys with room := room }
  else
    let room' := { room with
      state := RState.playing, roundStartTime := some now, roundAnswered := [] }
    let s1 := schedule { sys with room := room' } TimerKind.endRoundT
    ({ s1.1 with room := { s1.1.room with roundTimer := some s1.2 } },
     [Emit.roundStart room'.currentRound])

/-- The `endRound` function: enter `roundResult`, zero the streak of and
append a `{correct:false, points:0}` entry for every player not in
`roundAnswered`, emit the round summary, and always arm the 5-second
round-advance timer. -/
def endRoundH (sys : Sys) : Sys × List Emit :=
  let room := sys.room
  let players' := room.players.map (fun kv =>
    (kv.1,
      if kv.1 ∈ room.roundAnswered then kv.2
      else
        { kv.2 with
            streak := 0,
            answers := kv.2.answers ++ [⟨room.currentRound, false, 0, none, none⟩] }))
  let room' := { room with state := RState.roundResult, players := players' }
  let s1 := schedule { sys with room := room' } TimerKind.nextRoundT
  ({ s1.1 with room := { s1.1.room with roundTimer := some s1.2 } },
   [Emit.roundEnd room.currentRound])

/-- The `start-game` handler: host only, needs at least one image, clamps
`totalRounds` to the image count, resets all players and enters `playing`;
the first round starts when the (untracked) 2-second timer fires. -/
def startGameH (sys : Sys) (sock : String) : Sys × List Emit :=
  if ¬ isHostConn sys.conns sock then (sys, [])
  else if sys.room.images.length = 0 then
    (sys, [Emit.errorMsg sock "No images uploaded! Add some images first."])
  else
    let room' := { sys.room with
      settings := { sys.room.settings with
        totalRounds := min sys.room.settings.totalRounds sys.room.images.length },
      currentRound := 0,
      state := RState.playing,
      players := sys.room.players.map (fun kv =>
        (kv.1, { kv.2 with score := 0, answers := [], streak := 0 })) }
    let s1 := schedule { sys with room := room' } TimerKind.startRoundT
    (s1.1, [Emit.gameStarted])

/-- The scoring block of the `submit-guess` handler (the code between
`if (matchQuality > 0)` and `player.score += points`): time-decayed base
points clamped to [100, 1000], quality multiplier, and — only for
quality ≥ 0.7 — the streak bonus on the already-incremented streak and the
position bonus computed from `roundAnswered.size + 1`. -/
def scoreGuessPoints (quality : ℚ) (elapsed totalTime : ℤ)
    (priorStreak answeredBefore : ℕ) : ℤ :=
  let timeRatio : ℚ := (elapsed : ℚ) / (totalTime : ℚ)
  let basePoints := jsRound (1000 - timeRatio * 900)
  let basePoints := max 100 (min 1000 basePoints)
  let points0 := jsRound ((basePoints : ℚ) * quality)
  let newStreak := if quality ≥ 7/10 then priorStreak + 1 else priorStreak
  let points1 := points0 +
    (if quality ≥ 7/10 then
      if newStreak ≥ 3 then 200 else if newStreak ≥ 2 then 100 else 0
     else 0)
  let position := answeredBefore + 1
  points1 +
    (if quality ≥ 7/10 then
      if position = 1 then 300 else if position = 2 then 150
      else if position = 3 then 50 else 0
     else 0)

/-- The `submit-guess` handler. -/
def submitGuessH (sys : Sys) (sock guess : String) (now : ℤ) : Sys × List Emit :=
  let room := sys.room
  if room.state ≠ RState.playing then (sys, [])
  else
    match getPlayer room.players sock with
    | none => (sys, [])
    | some player =>
      if sock ∈ room.roundAnswered then
        (sys, [Emit.guessResult sock true true 0 0 0])
      else
        let quality := checkAnswer guess (currentImage room).answer
        let elapsed : ℤ := now - room.roundStartTime.getD 0
        let totalTime : ℤ := (room.settings.roundTime : ℤ) * 1000
        if 0 < quality then
          let newStreak :=
            if quality ≥ 7/10 then player.streak + 1 else player.streak
          let position := room.roundAnswered.length + 1
          let points := scoreGuessPoints quality elapsed totalTime
            player.streak room.roundAnswered.length
          let player' := { player with
            score := player.score + points,
            streak := newStreak,
            answers := player.answers ++
              [⟨room.currentRound, true, points, some elapsed, some quality⟩] }
          let room' := { room with
            players := setPlayer room.players sock player',
            roundAnswered := room.roundAnswered ++ [sock] }
          ({ sys with room := room' },
           [Emit.guessResult sock true false points position newStreak,
            Emit.leaderboardUpdate room'.roundAnswered.length room'.players.length])
        else (sys, [Emit.guessResult sock false false 0 0 0])

/-- The `disconnect` handler: hosts only trigger a broadcast, players are
removed from the player map — but not from `roundAnswered`. -/
def disconnectH (sys : Sys) (sock : String) : Sys × List Emit :=
  match sys.conns.find? (fun kv => kv.1 = sock) with
  | none => (sys, [])
  | some kv =>
    let sys' := { sys with conns := sys.conns.filter (fun p => p.1 ≠ sock) }
    if kv.2 then (sys', [Emit.hostDisconnected])
    else
      let existed := (getPlayer sys'.room.players sock).isSome
      let sys2 := { sys' with
        room := { sys'.room with
          players := sys'.room.players.filter (fun p => p.1 ≠ sock) } }
      (sys2, if existed then [Emit.playerUpdate] else [])

/-- The settings endpoint `POST /api/settings/:roomId`: each truthy body
field overwrites the corresponding setting; there is no state guard. -/
def updateSettingsH (sys : Sys) (roundTime totalRounds : Option ℕ) :
    Sys × List Emit :=
  let s0 := sys.room.settings
  let s1 := match roundTime with
    | some rt => { s0 with roundTime := rt }
    | none => s0
  let s2 := match totalRounds with
    | some tr => { s1 with totalRounds := tr }
    | none => s1
  ({ sys with room := { sys.room with settings := s2 } }, [])

/-- Deliver a pending timer: a cleared or unknown identifier is a no-op,
otherwise the timer is consumed and its callback runs. -/
def fireH (sys : Sys) (tid : ℕ) (now : ℤ) : Sys × List Emit :=
  match sys.pending.find? (fun p => p.1 = tid) with
  | none => (sys, [])
  | some p =>
    let sys' := { sys with pending := clearTimer sys.pending tid }
    match p.2 with
    | TimerKind.startRoundT => startRoundH sys' now
    | TimerKind.nextRoundT => startRoundH sys' now
    | TimerKind.endRoundT => endRoundH sys'

/-- One step of the engine. -/
def step (sys : Sys) : Ev → Sys × List Emit
  | Ev.hostJoin sock hostId => hostJoinH sys sock hostId
  | Ev.playerJoin sock name => playerJoinH sys sock name
  | Ev.startGame sock => startGameH sys sock
  | Ev.submitGuess sock guess now => submitGuessH sys sock guess now
  | Ev.disconnect sock => disconnectH sys sock
  | Ev.fire tid now => fireH sys tid now
  | Ev.updateSettings rt tr => updateSettingsH sys rt tr

/-- Run a trace of events, accumulating everything emitted. -/
def runTrace (sys : Sys) : List Ev → Sys × List Emit
  | [] => (sys, [])
  | e :: es =>
    let r := step sys e
    let rest := runTrace r.1 es
    (rest.1, r.2 ++ rest.2)

/-- A freshly created room (`createRoom`) with its externally supplied
image list: setup state, 30-second rounds, 5 configured rounds, nothing
pending. -/
def initSys (images : List Image) (hostId : String) : Sys :=
  { room :=
      { id := "room1", hostId := hostId, hostSocketId := none, images := images,
        players := [], settings := { roundTime := 30, totalRounds := 5 },
        state := RState.setup, currentRound := 0, roundStartTime := none,
        roundTimer := none, roundAnswered := [], createdAt := 0 },
    conns := [], pending := [], nextId := 0 }

theorem getPlayer_map_keyed (ps : List (String × Player)) (k : String)
    (f : String → Player → Player) :
    getPlayer (ps.map (fun kv => (kv.1, f kv.1 kv.2))) k =
      (getPlayer ps k).map (f k) := by
  induction ps with
  | nil => rfl
  | cons a tl ih =>
    by_cases h : a.1 = k
    · simp [getPlayer, List.find?_cons_of_pos, h]
    · simpa [getPlayer, List.find?_cons_of_neg, h] using ih

theorem getPlayer_isSome_of_any (ps : List (String × Player)) (k : String)
    (h : ps.any (fun kv => kv.1 = k)) : (getPlayer ps k).isSome := by
  induction ps with
  | nil => simp at h
  | cons a tl ih =>
    by_cases ha : a.1 = k
    · simp [getPlayer, List.find?_cons_of_pos, ha]
    · simp only [List.any_cons, Bool.or_eq_true, decide_eq_true_eq] at h
      rcases h with h | h
      · exact absurd h ha
      · simpa [getPlayer, List.find?_cons_of_neg, ha] using ih h

theorem getPlayer_setPlayer_self (ps : List (String × Player)) (k : String)
    (v : Player) : getPlayer (setPlayer ps k v) k = some v := by
  unfold setPlayer
  by_cases hany : ps.any (fun kv => kv.1 = k)
  · rw [if_pos hany]
    have hmap : ps.map (fun kv => if kv.1 = k then (k, v) else kv) =
        ps.map (fun kv => (kv.1, if kv.1 = k then v else kv.2)) := by
      apply List.map_congr_left
      intro kv _
      by_cases h : kv.1 = k <;> simp [h]
    rw [hmap, getPlayer_map_keyed ps k (fun key p => if key = k then v else p)]
    obtain ⟨p, hp⟩ := Option.isSome_iff_exists.mp (getPlayer_isSome_of_any ps k hany)
    rw [hp]
    simp
  · rw [if_neg hany]
    induction ps with
    | nil => simp [getPlayer]
    | cons a tl ih =>
      simp only [List.any_cons, Bool.or_eq_true, decide_eq_true_eq, not_or] at hany
      simp only [List.cons_append]
      rw [getPlayer, List.find?_cons_of_neg _ (by simpa using hany.1)]
      exact ih (by simpa using hany.2)

/-- Modelled from the spec: base points from time decay,
`round(1000 − (elapsedMs/totalMs)·900)` clamped to `[100, 1000]`. -/
def specBasePoints (elapsedMs totalMs : ℤ) : ℤ :=
  max 100 (min 1000 (jsRound (1000 - ((elapsedMs : ℚ) / (totalMs : ℚ)) * 900)))

/-- Modelled from the spec (Scoring Policy, claim C3): quality-weighted
base points; only when quality ≥ 0.7, a streak bonus computed from the
incremented streak and a position bonus from the 1-indexed rank among this
round's qualifying answers. -/
def specPoints (quality : ℚ) (elapsedMs totalMs : ℤ)
    (priorStreak answeredBefore : ℕ) : ℤ :=
  jsRound ((specBasePoints elapsedMs totalMs : ℚ) * quality) +
  (if quality ≥ 7/10 then
    (if priorStreak + 1 ≥ 3 then 200 else if priorStreak + 1 ≥ 2 then 100 else 0) +
    (if answeredBefore + 1 = 1 then 300 else if answeredBefore + 1 = 2 then 150
     else if answeredBefore + 1 = 3 then 50 else 0)
   else 0)

/-- C2: a player already in `answeredThisRound` who submits again in the
same round gets a `correct, alreadyAnswered` acknowledgment only, and the
whole system state — score, streak, history, `answeredThisRound`, pending
timers — is unchanged; no leaderboard broadcast happens. -/
theorem c2_duplicate_guess_noop (sys : Sys) (sock guess : String) (now : ℤ)
    (hstate : sys.room.state = RState.playing)
    (hsome : (getPlayer sys.room.players sock).isSome)
    (hdup : sock ∈ sys.room.roundAnswered) :
    step sys (Ev.submitGuess sock guess now) =
      (sys, [Emit.guessResult sock true true 0 0 0]) := by
  obtain ⟨p, hp⟩ := Option.isSome_iff_exists.mp hsome
  simp [step, submitGuessH, hstate, hp, hdup]

/-- The code's scoring block computes exactly the Scoring Policy formula
of the spec: quality-weighted clamped time-decay base, plus — only for
quality ≥ 0.7 — the streak bonus on the incremented streak and the
position bonus. -/
theorem scoreGuessPoints_eq_specPoints (q : ℚ) (e t : ℤ) (s n : ℕ) :
    scoreGuessPoints q e t s n = specPoints q e t s n := by
  unfold scoreGuessPoints specPoints specBasePoints
  dsimp only
  by_cases h7 : q ≥ 7/10
  · simp only [h7, if_true]
    ring
  · simp only [h7, if_false]
    ring

/-- C3: an accepted guess with quality > 0 awards exactly the Scoring
Policy points: `round(base · quality)` for
`base = round(1000 − (elapsed/total)·900)` clamped to `[100, 1000]`, plus,
only when quality ≥ 0.7, the streak bonus on the incremented streak and
the 1st/2nd/3rd position bonus; the streak increments exactly when
quality ≥ 0.7, and the answer history receives the scored entry. -/
theorem c3_scoring (sys : Sys) (sock guess : String) (now : ℤ)
    (hstate : sys.room.state = RState.playing)
    (hsome : (getPlayer sys.room.players sock).isSome)
    (hdup : sock ∉ sys.room.roundAnswered)
    (hq : 0 < checkAnswer guess (currentImage sys.room).answer) :
    getPlayer (step sys (Ev.submitGuess sock guess now)).1.room.players sock =
      (getPlayer sys.room.players sock).map (fun p =>
        { p with
            score := p.score + specPoints
              (checkAnswer guess (currentImage sys.room).answer)
              (now - sys.room.roundStartTime.getD 0)
              ((sys.room.settings.roundTime : ℤ) * 1000)
              p.streak sys.room.roundAnswered.length,
            streak :=
              if checkAnswer guess (currentImage sys.room).answer ≥ 7/10 then
                p.streak + 1
              else p.streak,
            answers := p.answers ++ [⟨sys.room.currentRound, true,
              specPoints (checkAnswer guess (currentImage sys.room).answer)
                (now - sys.room.roundStartTime.getD 0)
                ((sys.room.settings.roundTime : ℤ) * 1000)
                p.streak sys.room.roundAnswered.length,
              some (now - sys.room.roundStartTime.getD 0),
              some (checkAnswer guess (currentImage sys.room).answer)⟩] }) := by
  obtain ⟨p, hp⟩ := Option.isSome_iff_exists.mp hsome
  simp only [step, submitGuessH, hstate, ne_eq, not_true_eq_false, if_false,
    hp, hdup, ite_false, ite_true]
  rw [if_pos hq, getPlayer_setPlayer_self]
  simp [scoreGuessPoints_eq_specPoints]

/-- Images used by the concrete traces: one room with a single asset. -/
def oneImage : List Image := [⟨"d1", "paris.jpg", "paris"⟩]

/-- Images used by the concrete traces: a room with two assets. -/
def twoImages : List Image :=
  [⟨"d1", "a.jpg", "abc xyz"⟩, ⟨"d2", "b.jpg", "abc xyz"⟩]

/-- Host joins, a player joins, the host starts, the 2-second timer fires
(round 1 begins), the 30-second round timer fires (round 1 closes). -/
def traceSingleRound : List Ev :=
  [Ev.hostJoin "hs" "h", Ev.playerJoin "p1" "alice", Ev.startGame "hs",
   Ev.fire 0 2000, Ev.fire 1 32000]

/-- `traceSingleRound` followed by the 5-second round-advance timer, after
which `startRound` exhausts the rounds and ends the game. -/
def traceSingleRoundFinished : List Ev :=
  traceSingleRound ++ [Ev.fire 2 37000]

/-- Two players join; round 1 starts at time 0; both answer exactly. -/
def traceTwoAnswers : List Ev :=
  [Ev.hostJoin "hs" "h", Ev.playerJoin "p1" "a", Ev.playerJoin "p2" "b",
   Ev.startGame "hs", Ev.fire 0 0, Ev.submitGuess "p1" "paris" 0,
   Ev.submitGuess "p2" "paris" 15000]

set_option maxRecDepth 100000 in
/-- C2 witness: in the state reached by `traceTwoAnswers`, a second guess
from player `p1` (who already answered round 1) is acknowledged as a
duplicate and changes nothing. -/
theorem c2_duplicate_guess_noop_witness :
    step (runTrace (initSys oneImage "h") traceTwoAnswers).1
        (Ev.submitGuess "p1" "paris" 16000) =
      ((runTrace (initSys oneImage "h") traceTwoAnswers).1,
       [Emit.guessResult "p1" true true 0 0 0]) :=
  c2_duplicate_guess_noop _ _ _ _ (by with_unfolding_all decide)
    (by with_unfolding_all decide) (by with_unfolding_all decide)

set_option maxRecDepth 100000 in
/-- C3 witness: the spec's two worked examples.  With 30-second rounds, the
first responder at elapsed 0 with quality 1 and streak becoming 1 scores
1300; the second responder at elapsed 15000 scores 700. -/
theorem c3_scoring_witness :
    (getPlayer (step (runTrace (initSys oneImage "h")
        [Ev.hostJoin "hs" "h", Ev.playerJoin "p1" "a", Ev.playerJoin "p2" "b",
         Ev.startGame "hs", Ev.fire 0 0]).1
        (Ev.submitGuess "p1" "paris" 0)).1.room.players "p1").map
      (fun p => p.score) = some 1300 ∧
    (getPlayer (step (runTrace (initSys oneImage "h")
        [Ev.hostJoin "hs" "h", Ev.playerJoin "p1" "a", Ev.playerJoin "p2" "b",
         Ev.startGame "hs", Ev.fire 0 0, Ev.submitGuess "p1" "paris" 0]).1
        (Ev.submitGuess "p2" "paris" 15000)).1.room.players "p2").map
      (fun p => p.score) = some 700 := by
  constructor
  · rw [c3_scoring _ _ _ _ (by with_unfolding_all decide)
      (by with_unfolding_all decide) (by with_unfolding_all decide)
      (by with_unfolding_all decide)]
    with_unfolding_all decide
  · rw [c3_scoring _ _ _ _ (by with_unfolding_all decide)
      (by with_unfolding_all decide) (by with_unfolding_all decide)
      (by with_unfolding_all decide)]
    with_unfolding_all decide

/-- C5 counterexample: the room reached by playing out the single-round
game is `finished`, yet a further `start-game` from the host moves it to
`playing` and a `host-join` moves it to `lobby` — `finished` is not
terminal for those events. -/
theorem c5_finished_not_terminal_cex :
    (runTrace (initSys oneImage "h") traceSingleRoundFinished).1.room.state =
      RState.finished ∧
    (step (runTrace (initSys oneImage "h") traceSingleRoundFinished).1
      (Ev.startGame "hs")).1.room.state = RState.playing ∧
    (step (runTrace (initSys oneImage "h") traceSingleRoundFinished).1
      (Ev.hostJoin "hs" "h")).1.room.state = RState.lobby := by
  refine ⟨?_, ?_, ?_⟩ <;> with_unfolding_all decide

/-- C5 (amended): a finished room silently ignores `submit-guess` and
rejects `player-join` with an error, both leaving the whole system state
unchanged; but a `start-game` from a host connection with images present
restarts the game into `playing`, and a `host-join` with the correct
credential moves the room back to `lobby`.  Only the registry's time-based
eviction (outside the engine) removes the room. -/
theorem c5_finished_events (sys : Sys) (hfin : sys.room.state = RState.finished) :
    (∀ sock guess now, step sys (Ev.submitGuess sock guess now) = (sys, [])) ∧
    (∀ sock name, step sys (Ev.playerJoin sock name) =
      (sys, [Emit.errorMsg sock "This game has already ended"])) ∧
    (∀ sock, isHostConn sys.conns sock = true → sys.room.images.length ≠ 0 →
      (step sys (Ev.startGame sock)).1.room.state = RState.playing) ∧
    (∀ sock, (step sys (Ev.hostJoin sock sys.room.hostId)).1.room.state =
      RState.lobby) := by
  refine ⟨?_, ?_, ?_, ?_⟩
  · intro sock guess now
    simp [step, submitGuessH, hfin]
  · intro sock name
    simp [step, playerJoinH, hfin]
  · intro sock hh hi
    simp [step, startGameH, schedule, hh, hi]
  · intro sock
    simp [step, hostJoinH]

set_option maxRecDepth 100000 in
/-- C5 witness: the amended statement applied in the concrete finished
room. -/
theorem c5_finished_events_witness :
    step (runTrace (initSys oneImage "h") traceSingleRoundFinished).1
        (Ev.submitGuess "p1" "paris" 50000) =
      ((runTrace (initSys oneImage "h") traceSingleRoundFinished).1, []) ∧
    (step (runTrace (initSys oneImage "h") traceSingleRoundFinished).1
      (Ev.startGame "hs")).1.room.state = RState.playing :=
  ⟨(c5_finished_events _ (by with_unfolding_all decide)).1 "p1" "paris" 50000,
   (c5_finished_events _ (by with_unfolding_all decide)).2.2.1 "hs"
     (by with_unfolding_all decide) (by with_unfolding_all decide)⟩

/-- Round 1 is answered with quality 1, round 2 with the partial-credit
guess "abc" (quality 0.4 via the word-matching tier), and both rounds
close. -/
def traceLowQualityRound2 : List Ev :=
  [Ev.hostJoin "hs" "h", Ev.playerJoin "p1" "carol", Ev.startGame "hs",
   Ev.fire 0 2000, Ev.submitGuess "p1" "abc xyz" 5000, Ev.fire 1 32000,
   Ev.fire 2 37000, Ev.submitGuess "p1" "abc" 40000, Ev.fire 3 67000]

/-- `traceLowQualityRound2` cut just before round 2 closes. -/
def traceLowQualityBeforeEnd : List Ev :=
  [Ev.hostJoin "hs" "h", Ev.playerJoin "p1" "carol", Ev.startGame "hs",
   Ev.fire 0 2000, Ev.submitGuess "p1" "abc xyz" 5000, Ev.fire 1 32000,
   Ev.fire 2 37000, Ev.submitGuess "p1" "abc" 40000]

/-- A round that closes with no submission from the joined player. -/
def traceNoAnswer : List Ev :=
  [Ev.hostJoin "hs" "h", Ev.playerJoin "p1" "dave", Ev.startGame "hs",
   Ev.fire 0 2000]

set_option maxRecDepth 1000000 in
/-- C6 counterexample: the round-2 guess "abc" scores quality 0.4, which
is strictly between 0 and 0.7; after round 2 ends the player's streak is
still 1 (not reset to 0), they have no round-2 `{correct := false}`
history entry, and their only round-2 entry is the scored correct one. -/
theorem c6_low_quality_keeps_streak_cex :
    checkAnswer "abc" "abc xyz" = 2/5 ∧ (0 : ℚ) < 2/5 ∧ ¬ ((2/5 : ℚ) ≥ 7/10) ∧
    (getPlayer (runTrace (initSys twoImages "h")
        traceLowQualityRound2).1.room.players "p1").map (fun p =>
      (p.streak,
       p.answers.countP (fun e => e.round = 2 && ¬ e.correct),
       p.answers.countP (fun e => e.round = 2 && e.correct))) =
      some (1, 0, 1) := by
  refine ⟨?_, ?_, ?_, ?_⟩ <;> with_unfolding_all decide

/-- C6 (amended): at round end, exactly the players *not* in
`answeredThisRound` — those without any scored (quality > 0) guess this
round — have their streak reset to 0 and receive a
`{correct := false, points := 0}` history entry; a player who scored this
round, even with quality below 0.7, is left completely untouched by the
round-end sweep. -/
theorem c6_round_end_sweep (sys : Sys) (k : String) :
    (k ∉ sys.room.roundAnswered →
      getPlayer (endRoundH sys).1.room.players k =
        (getPlayer sys.room.players k).map (fun p =>
          { p with
              streak := 0,
              answers := p.answers ++
                [⟨sys.room.currentRound, false, 0, none, none⟩] })) ∧
    (k ∈ sys.room.roundAnswered →
      getPlayer (endRoundH sys).1.room.players k =
        getPlayer sys.room.players k) := by
  constructor <;> intro hk <;>
    · unfold endRoundH schedule
      dsimp only
      rw [getPlayer_map_keyed sys.room.players k (fun key p =>
        if key ∈ sys.room.roundAnswered then p
        else
          { p with
              streak := 0,
              answers := p.answers ++
                [⟨sys.room.currentRound, false, 0, none, none⟩] })]
      simp [hk]

set_option maxRecDepth 1000000 in
/-- C6 witness: the sweep applied to the concrete states — the player who
scored 0.4 in round 2 is untouched, and the player who never answered is
reset and given the failure entry. -/
theorem c6_round_end_sweep_witness :
    getPlayer (endRoundH (runTrace (initSys twoImages "h")
        traceLowQualityBeforeEnd).1).1.room.players "p1" =
      getPlayer (runTrace (initSys twoImages "h")
        traceLowQualityBeforeEnd).1.room.players "p1" ∧
    getPlayer (endRoundH (runTrace (initSys oneImage "h")
        traceNoAnswer).1).1.room.players "p1" =
      (getPlayer (runTrace (initSys oneImage "h")
        traceNoAnswer).1.room.players "p1").map (fun p =>
          { p with
              streak := 0,
              answers := p.answers ++
                [⟨(runTrace (initSys oneImage "h")
                    traceNoAnswer).1.room.currentRound, false, 0, none, none⟩] }) :=
  ⟨(c6_round_end_sweep _ "p1").2 (by with_unfolding_all decide),
   (c6_round_end_sweep _ "p1").1 (by with_unfolding_all decide)⟩

/-- C7 counterexample: with one asset the configured 5 rounds are clamped
to 1, but when that single (last) round closes the room is in
`roundResult` — not `finished` — and no `game-over` has been emitted yet:
the transition to `finished` is not direct. -/
theorem c7_round_close_not_finished_cex :
    (runTrace (initSys oneImage "h") traceSingleRound).1.room.settings.totalRounds = 1 ∧
    (runTrace (initSys oneImage "h") traceSingleRound).1.room.state =
      RState.roundResult ∧
    (runTrace (initSys oneImage "h") traceSingleRound).2.countP
      (fun e => e = Emit.gameOver) = 0 := by
  refine ⟨?_, ?_, ?_⟩ <;> with_unfolding_all decide

/-- C7 (amended): with one asset, `totalRounds` is clamped from 5 to 1;
the round close enters `roundResult` and arms the 5-second advance timer
even though this was the last round; when that timer fires, `startRound`
finds the rounds exhausted and ends the game — the room reaches `finished`
and exactly one `game-over` is emitted over the whole run. -/
theorem c7_single_round_game :
    (runTrace (initSys oneImage "h")
      traceSingleRoundFinished).1.room.settings.totalRounds = 1 ∧
    (runTrace (initSys oneImage "h") traceSingleRoundFinished).1.room.state =
      RState.finished ∧
    (runTrace (initSys oneImage "h") traceSingleRoundFinished).2.countP
      (fun e => e = Emit.gameOver) = 1 := by
  refine ⟨?_, ?_, ?_⟩ <;> with_unfolding_all decide

/-- Host joins and starts the game: the room is `playing`. -/
def tracePlaying : List Ev := [Ev.hostJoin "hs" "h", Ev.startGame "hs"]

/-- C9 counterexample: the settings endpoint updates `roundTime` while the
room is `playing` — settings are not frozen once play begins. -/
theorem c9_settings_mutable_while_playing_cex :
    (runTrace (initSys oneImage "h") tracePlaying).1.room.state = RState.playing ∧
    (runTrace (initSys oneImage "h") tracePlaying).1.room.settings.roundTime = 30 ∧
    (step (runTrace (initSys oneImage "h") tracePlaying).1
      (Ev.updateSettings (some 60) none)).1.room.settings.roundTime = 60 := by
  refine ⟨?_, ?_, ?_⟩ <;> with_unfolding_all decide

/-- C9 (amended): the settings endpoint has no state guard — in every room
state each truthy body field overwrites the corresponding setting (and the
room state itself is untouched); `totalRounds` is additionally clamped
down to the image count at the moment the game starts. -/
theorem c9_settings_no_state_guard (sys : Sys) (rt tr : Option ℕ) :
    (step sys (Ev.updateSettings rt tr)).1.room.settings =
      { roundTime := rt.getD sys.room.settings.roundTime,
        totalRounds := tr.getD sys.room.settings.totalRounds } ∧
    (step sys (Ev.updateSettings rt tr)).1.room.state = sys.room.state ∧
    (∀ sock, isHostConn sys.conns sock = true → sys.room.images.length ≠ 0 →
      (step sys (Ev.startGame sock)).1.room.settings.totalRounds =
        min sys.room.settings.totalRounds sys.room.images.length) := by
  refine ⟨?_, ?_, ?_⟩
  · cases rt <;> cases tr <;> simp [step, updateSettingsH]
  · cases rt <;> cases tr <;> simp [step, updateSettingsH]
  · intro sock hh hi
    simp [step, startGameH, schedule, hh, hi]

set_option maxRecDepth 100000 in
/-- C9 witness: a concrete update applied in the playing state, and the
clamp at game start from 5 configured rounds down to the single image. -/
theorem c9_settings_no_state_guard_witness :
    (step (runTrace (initSys oneImage "h") tracePlaying).1
      (Ev.updateSettings (some 60) none)).1.room.settings =
      { roundTime := (some 60).getD (runTrace (initSys oneImage "h")
          tracePlaying).1.room.settings.roundTime,
        totalRounds := (none : Option ℕ).getD (runTrace (initSys oneImage "h")
          tracePlaying).1.room.settings.totalRounds } ∧
    (step (initSys oneImage "h" |> (fun s => (step s (Ev.hostJoin "hs" "h")).1))
      (Ev.startGame "hs")).1.room.settings.totalRounds =
      min (initSys oneImage "h" |> (fun s =>
        (step s (Ev.hostJoin "hs" "h")).1)).room.settings.totalRounds
        (initSys oneImage "h" |> (fun s =>
          (step s (Ev.hostJoin "hs" "h")).1)).room.images.length :=
  ⟨(c9_settings_no_state_guard _ (some 60) none).1,
   (c9_settings_no_state_guard _ none none).2.2 "hs"
     (by with_unfolding_all decide) (by with_unfolding_all decide)⟩

/-- C10: a `host-join` whose credential matches the room's `hostId`
unconditionally sets the room state to `lobby` (and records the host
socket), whatever the current state was. -/
theorem c10_host_join_forces_lobby (sys : Sys) (sock cred : String)
    (hcred : cred = sys.room.hostId) :
    (step sys (Ev.hostJoin sock cred)).1.room.state = RState.lobby ∧
    (step sys (Ev.hostJoin sock cred)).1.room.hostSocketId = some sock := by
  subst hcred
  simp [step, hostJoinH]

set_option maxRecDepth 100000 in
/-- C10 witness: a host rejoining a finished room drags it back to the
lobby state. -/
theorem c10_host_join_forces_lobby_witness :
    (step (runTrace (initSys oneImage "h") traceSingleRoundFinished).1
      (Ev.hostJoin "hs" "h")).1.room.state = RState.lobby ∧
    (step (runTrace (initSys oneImage "h") traceSingleRoundFinished).1
      (Ev.hostJoin "hs" "h")).1.room.hostSocketId = some "hs" :=
  c10_host_join_forces_lobby _ "hs" "h" (by with_unfolding_all decide)

/-- A member of `setPlayer ps k v` is an old member or the new binding. -/
theorem mem_setPlayer (ps : List (String × Player)) (k : String) (v : Player)
    (kv : String × Player) (h : kv ∈ setPlayer ps k v) : kv ∈ ps ∨ kv = (k, v) := by
  unfold setPlayer at h
  split_ifs at h with hany
  · obtain ⟨a, ha, rfl⟩ := List.mem_map.mp h
    by_cases h1 : a.1 = k
    · right; simp [h1]
    · left; simpa [h1] using ha
  · rcases List.mem_append.mp h with h | h
    · exact Or.inl h
    · right; simpa using h

/-- A successful `Map.get` means the binding is in the list. -/
theorem getPlayer_mem (ps : List (String × Player)) (k : String) (p : Player)
    (h : getPlayer ps k = some p) : (k, p) ∈ ps := by
  unfold getPlayer at h
  cases hf : ps.find? (fun kv => kv.1 = k) with
  | none => rw [hf] at h; simp at h
  | some kv =>
    rw [hf] at h
    simp at h
    have hkkv : kv.1 = k := by simpa using List.find?_some hf
    have hkp : (k, p) = kv := by rw [← hkkv, ← h]
    rw [hkp]
    exact List.mem_of_find?_eq_some hf

theorem nodup_append_singleton (l : List String) (a : String)
    (ha : a ∉ l) (hl : l.Nodup) : (l ++ [a]).Nodup := by
  induction l with
  | nil => simp
  | cons b bs ih =>
    simp only [List.cons_append, List.nodup_cons] at hl ⊢
    refine ⟨?_, ih (by simp at ha; exact ha.2) hl.2⟩
    intro hmem
    rcases List.mem_append.mp hmem with hmem | hmem
    · exact hl.1 hmem
    · simp at hmem
      simp [hmem] at ha

/-- The per-player part of the amended C4 invariant: every scored
(`correct`) history entry is for a round at most the current one; a scored
entry for the current round forces membership in `answeredThisRound`; and
the scored entries have pairwise-distinct round numbers (at most one
scored entry per round). -/
def InvPlayer (room : Room) (kv : String × Player) : Prop :=
  (∀ e ∈ kv.2.answers, e.correct = true → e.round ≤ room.currentRound) ∧
  (∀ e ∈ kv.2.answers, e.correct = true → e.round = room.currentRound →
    kv.1 ∈ room.roundAnswered) ∧
  (kv.2.answers.filter (fun e => e.correct)).Pairwise (fun e1 e2 => e1.round ≠ e2.round)

/-- The amended C4 invariant: `answeredThisRound` never holds duplicates,
and every registered player satisfies `InvPlayer`. -/
def Inv (sys : Sys) : Prop :=
  sys.room.roundAnswered.Nodup ∧ ∀ kv ∈ sys.room.players, InvPlayer sys.room kv

theorem inv_hostJoin (sys : Sys) (sock cred : String) (h : Inv sys) :
    Inv (hostJoinH sys sock cred).1 := by
  unfold hostJoinH
  split_ifs <;> exact h

theorem inv_updateSettings (sys : Sys) (rt tr : Option ℕ) (h : Inv sys) :
    Inv (updateSettingsH sys rt tr).1 := by
  cases rt <;> cases tr <;> exact h

theorem inv_playerJoin (sys : Sys) (sock name : String) (h : Inv sys) :
    Inv (playerJoinH sys sock name).1 := by
  unfold playerJoinH
  split_ifs
  · exact h
  · exact h
  · dsimp only
    refine ⟨h.1, ?_⟩
    intro kv hkv
    rcases mem_setPlayer _ _ _ _ hkv with hmem | heq
    · exact h.2 kv hmem
    · subst heq
      refine ⟨?_, ?_, List.Pairwise.nil⟩
      · intro e he _
        exact absurd he (List.not_mem_nil e)
      · intro e he _ _
        exact absurd he (List.not_mem_nil e)

theorem inv_startGame (sys : Sys) (sock : String) (h : Inv sys) :
    Inv (startGameH sys sock).1 := by
  unfold startGameH schedule
  dsimp only
  split_ifs
  all_goals try exact h
  refine ⟨h.1, ?_⟩
  intro kv hkv
  rcases List.mem_map.mp hkv with ⟨kv0, _, rfl⟩
  refine ⟨?_, ?_, List.Pairwise.nil⟩
  · intro e he _
    exact absurd he (List.not_mem_nil e)
  · intro e he _ _
    exact absurd he (List.not_mem_nil e)

theorem inv_endGame (sys : Sys) (h : Inv sys) : Inv (endGameH sys).1 := by
  unfold endGameH
  exact h

theorem inv_startRound (sys : Sys) (now : ℤ) (h : Inv sys) :
    Inv (startRoundH sys now).1 := by
  unfold startRoundH schedule endGameH
  dsimp only
  split_ifs
  · refine ⟨h.1, ?_⟩
    intro kv hkv
    obtain ⟨hi, hii, hiii⟩ := h.2 kv hkv
    dsimp only [InvPlayer, Inv]
    refine ⟨?_, ?_, hiii⟩
    · intro e he hc
      exact le_trans (hi e he hc) (Nat.le_succ _)
    · intro e he hc hr
      have := hi e he hc
      omega
  · refine ⟨List.nodup_nil, ?_⟩
    intro kv hkv
    obtain ⟨hi, hii, hiii⟩ := h.2 kv hkv
    dsimp only [InvPlayer, Inv]
    refine ⟨?_, ?_, hiii⟩
    · intro e he hc
      exact le_trans (hi e he hc) (Nat.le_succ _)
    · intro e he hc hr
      have := hi e he hc
      omega

theorem inv_endRound (sys : Sys) (h : Inv sys) : Inv (endRoundH sys).1 := by
  unfold endRoundH schedule
  dsimp only
  refine ⟨h.1, ?_⟩
  intro kv hkv
  rcases List.mem_map.mp hkv with ⟨kv0, hkv0, rfl⟩
  obtain ⟨hi, hii, hiii⟩ := h.2 kv0 hkv0
  by_cases hmem : kv0.1 ∈ sys.room.roundAnswered
  · simp only [hmem, if_true]
    exact ⟨hi, hii, hiii⟩
  · simp only [hmem, if_false]
    refine ⟨?_, ?_, ?_⟩
    · intro e he hc
      rcases List.mem_append.mp he with he | he
      · exact hi e he hc
      · simp only [List.mem_singleton] at he
        subst he
        simp at hc
    · intro e he hc hr
      rcases List.mem_append.mp he with he | he
      · exact hii e he hc hr
      · simp only [List.mem_singleton] at he
        subst he
        simp at hc
    · rw [List.filter_append]
      simpa using hiii

theorem inv_submitGuess (sys : Sys) (sock guess : String) (now : ℤ)
    (h : Inv sys) : Inv (submitGuessH sys sock guess now).1 := by
  unfold submitGuessH
  dsimp only
  by_cases h1 : sys.room.state ≠ RState.playing
  · rw [if_pos h1]
    exact h
  · rw [if_neg h1]
    cases hgp : getPlayer sys.room.players sock with
    | none => exact h
    | some p =>
      dsimp only
      by_cases hdup : sock ∈ sys.room.roundAnswered
      · rw [if_pos hdup]
        exact h
      · rw [if_neg hdup]
        by_cases hq : 0 < checkAnswer guess (currentImage sys.room).answer
        · rw [if_pos hq]
          dsimp only
          refine ⟨nodup_append_singleton _ _ hdup h.1, ?_⟩
          intro kv hkv
          rcases mem_setPlayer _ _ _ _ hkv with hmem | heq
          · obtain ⟨hi, hii, hiii⟩ := h.2 kv hmem
            refine ⟨hi, ?_, hiii⟩
            intro e he hc hr
            exact List.mem_append_left _ (hii e he hc hr)
          · subst heq
            obtain ⟨hi, hii, hiii⟩ := h.2 (sock, p) (getPlayer_mem _ _ _ hgp)
            refine ⟨?_, ?_, ?_⟩
            · intro e he hc
              rcases List.mem_append.mp he with he | he
              · exact hi e he hc
              · simp only [List.mem_singleton] at he
                subst he
                simp
            · intro e he hc hr
              exact List.mem_append_right _ (by simp)
            · rw [List.filter_append, List.pairwise_append]
              refine ⟨hiii, by simp, ?_⟩
              intro a ha b hb
              simp only [List.mem_filter] at ha
              simp at hb
              subst hb
              dsimp only
              intro hround
              have hcorrect : a.correct = true := by simpa using ha.2
              exact hdup (hii a ha.1 hcorrect hround)
        · rw [if_neg hq]
          exact h

theorem inv_fire (sys : Sys) (tid : ℕ) (now : ℤ) (h : Inv sys) :
    Inv (fireH sys tid now).1 := by
  unfold fireH
  cases hf : sys.pending.find? (fun p => p.1 = tid) with
  | none => exact h
  | some p =>
    dsimp only
    cases p.2
    · exact inv_startRound _ _ h
    · exact inv_endRound _ h
    · exact inv_startRound _ _ h

theorem inv_disconnect (sys : Sys) (sock : String) (h : Inv sys) :
    Inv (disconnectH sys sock).1 := by
  unfold disconnectH
  cases hf : sys.conns.find? (fun kv => kv.1 = sock) with
  | none => exact h
  | some kv =>
    dsimp only
    split_ifs
    · exact h
    all_goals
      refine ⟨h.1, ?_⟩
      intro kv' hkv'
      exact h.2 kv' (List.mem_of_mem_filter hkv')

theorem inv_step (sys : Sys) (e : Ev) (h : Inv sys) : Inv (step sys e).1 := by
  cases e with
  | hostJoin sock cred => exact inv_hostJoin sys sock cred h
  | playerJoin sock name => exact inv_playerJoin sys sock name h
  | startGame sock => exact inv_startGame sys sock h
  | submitGuess sock guess now => exact inv_submitGuess sys sock guess now h
  | disconnect sock => exact inv_disconnect sys sock h
  | fire tid now => exact inv_fire sys tid now h
  | updateSettings rt tr => exact inv_updateSettings sys rt tr h

theorem inv_runTrace (sys : Sys) (evs : List Ev) (h : Inv sys) :
    Inv (runTrace sys evs).1 := by
  induction evs generalizing sys with
  | nil => exact h
  | cons e es ih => exact ih _ (inv_step sys e h)

/-- The player answers round 1 correctly and then disconnects: they stay
in `answeredThisRound` while leaving the player map. -/
def traceAnswerThenDisconnect : List Ev :=
  [Ev.hostJoin "hs" "h", Ev.playerJoin "p1" "alice", Ev.startGame "hs",
   Ev.fire 0 2000, Ev.submitGuess "p1" "paris" 3000, Ev.disconnect "p1"]

/-- The host emits `start-game` twice (there is no state guard), so two
round loops overlap: both 2-second timers fire, the two round-end timers
then both fire for round 2, and the round-end settlement runs twice. -/
def traceDoubleEndRound : List Ev :=
  [Ev.hostJoin "hs" "h", Ev.playerJoin "p1" "bob", Ev.startGame "hs",
   Ev.startGame "hs", Ev.fire 0 2000, Ev.fire 1 2100, Ev.fire 2 32000,
   Ev.fire 3 32100]

set_option maxRecDepth 1000000 in
/-- C4 counterexample: (a) after a correct answer followed by a
disconnect, `answeredThisRound` has 1 element while the player map is
empty, so its size exceeds the number of registered players; (b) after a
duplicated `start-game` the round-end settlement runs twice for the same
round and the remaining player receives two `{correct := false}` history
entries for round 2. -/
theorem c4_size_and_history_cex :
    ((runTrace (initSys oneImage "h")
        traceAnswerThenDisconnect).1.room.roundAnswered.length = 1 ∧
     (runTrace (initSys oneImage "h")
        traceAnswerThenDisconnect).1.room.players.length = 0) ∧
    (getPlayer (runTrace (initSys twoImages "h")
        traceDoubleEndRound).1.room.players "p1").map (fun p =>
      p.answers.countP (fun e => e.round = 2 && ¬ e.correct)) = some 2 := by
  refine ⟨⟨?_, ?_⟩, ?_⟩ <;> with_unfolding_all decide

/-- C4 (amended): in every room state reachable from a fresh room,
`answeredThisRound` is duplicate-free and every registered player's
*scored* (`correct`) history entries are for rounds at most the current
one, have pairwise-distinct round numbers (at most one scored entry per
round and per player), and a scored entry for the current round implies
membership in `answeredThisRound`.  The original size bound
`answeredThisRound.size ≤ players.size` fails when a player disconnects
after answering, and `{correct := false}` entries can be duplicated by
overlapping round timers after a repeated `start-game`. -/
theorem c4_answered_invariant (images : List Image) (hostId : String)
    (evs : List Ev) : Inv (runTrace (initSys images hostId) evs).1 :=
  inv_runTrace _ _ ⟨List.nodup_nil, by intro kv hkv; simp [initSys] at hkv⟩

/-- C4 witness: the invariant instantiated on a concrete played-out trace. -/
theorem c4_answered_invariant_witness :
    Inv (runTrace (initSys oneImage "h") traceTwoAnswers).1 :=
  c4_answered_invariant oneImage "h" traceTwoAnswers

end GuessThePlace
